import Mathlib

/-!
Shallow embedding of the Seattle parks ingestion pipeline
(`parks/management/commands/load_parks.py` together with the `Park` row of
`parks/models.py`).

Numbers are modelled by `ℚ`.  The pyproj coordinate transformer
(EPSG:2926 → EPSG:4326, the spec's CoordinateProjector) is an external
dependency; it is modelled as an explicit function argument
`proj : ℚ → ℚ → ℚ × ℚ` threaded through every operation, mirroring
`self.transformer` / `transform_point`.

Python exceptions that the command's per-feature `try`/`except` can catch
(`IndexError`, `TypeError`, `KeyError`, `ZeroDivisionError`) are modelled by
`Except Unit`.  Raw GeoJSON coordinate data, which in Python is an arbitrary
nesting of lists and numbers, is modelled by the inductive type `Coords`, so
that malformed geometries (a number where a list is expected, a missing
index, an empty ring) produce exactly the failures the Python code produces.
-/

/-- Raw GeoJSON coordinate data: an arbitrary nesting of lists and numbers,
as produced by `json.load`. -/
inductive Coords where
  | num (q : ℚ)
  | list (l : List Coords)

/-- Iterating or indexing a value as a Python list; a number raises
`TypeError`. -/
def Coords.asList : Coords → Except Unit (List Coords)
  | .list l => Except.ok l
  | .num _ => Except.error ()

/-- Using a value as a number (e.g. summing it); a list raises
`TypeError`. -/
def Coords.asNum : Coords → Except Unit ℚ
  | .num q => Except.ok q
  | .list _ => Except.error ()

/-- Whether a raw coordinate value is a number. -/
def Coords.isNum : Coords → Bool
  | .num _ => true
  | .list _ => false

/-- Python list indexing `l[i]`; out of range raises `IndexError`. -/
def lIdx (l : List Coords) (i : Nat) : Except Unit Coords :=
  match l.get? i with
  | some c => Except.ok c
  | none => Except.error ()

/-- A GeoJSON geometry object as the command reads it:
`geometry.get('type', '')` and `geometry.get('coordinates', [])`. -/
structure Geometry where
  type : String
  coordinates : Coords

/-- Properties of a boundary feature (`Park_Boundaries_*.geojson`):
`NAME`, `PMA` (integer in the boundaries file), `PARKSBND_AREA`, `OBJECTID`.
`none` models an absent key. -/
structure BProps where
  NAME : Option String
  PMA : Option Int
  PARKSBND_AREA : Option ℚ
  OBJECTID : Option Int

/-- A boundary feature: `feature.get('properties', {})` and
`feature.get('geometry', {})`. -/
structure BFeature where
  properties : BProps
  geometry : Geometry

/-- A sign feature (`Park_Signs_*.geojson`): `properties.SIGN_TP`,
`properties.PMAID`, and the point geometry's raw `coordinates` value
(`none` models a feature whose `geometry`/`coordinates` entry is missing,
so that `sign['geometry']['coordinates']` raises `KeyError`). -/
structure SFeature where
  SIGN_TP : Option String
  PMAID : Option String
  geometry : Option Coords

/-- The persisted `Park` row, restricted to the fields the ingestion command
writes (`parks/models.py`).  `boundary_geojson` keeps the transformed
geometry value (the Python code stores its `json.dumps` serialization);
`rainbow_sign_locations` keeps the list of `[lon, lat]` pairs, `none` when
the Python code stores `NULL`. -/
structure Park where
  pma_id : String
  name : String
  latitude : ℚ
  longitude : ℚ
  acres : Option ℚ
  external_id : Option String
  boundary_geojson : Geometry
  has_rainbow_sign : Bool
  rainbow_sign_locations : Option (List (ℚ × ℚ))

/-- The run counters of `Command.handle`. -/
structure Counters where
  created : Nat
  updated : Nat
  skipped : Nat
  with_signs : Nat
  without_signs : Nat

/-- All counters start at zero. -/
def Counters.zero : Counters := ⟨0, 0, 0, 0, 0⟩

/-- `parks_created += 1`. -/
def Counters.incCreated (c : Counters) : Counters := { c with created := c.created + 1 }

/-- `parks_updated += 1`. -/
def Counters.incUpdated (c : Counters) : Counters := { c with updated := c.updated + 1 }

/-- `parks_skipped += 1`. -/
def Counters.incSkipped (c : Counters) : Counters := { c with skipped := c.skipped + 1 }

/-- `parks_with_signs += 1`. -/
def Counters.incWith (c : Counters) : Counters := { c with with_signs := c.with_signs + 1 }

/-- `parks_without_signs += 1`. -/
def Counters.incWithout (c : Counters) : Counters := { c with without_signs := c.without_signs + 1 }

/-- Appending a value under a key in a `defaultdict(list)`: the first entry
with that key grows by one element; if no entry exists a new one is added. -/
def dictAppend (d : List (String × List SFeature)) (k : String) (v : SFeature) :
    List (String × List SFeature) :=
  match d with
  | [] => [(k, [v])]
  | (k', vs) :: rest =>
    if k' = k then (k', vs ++ [v]) :: rest else (k', vs) :: dictAppend rest k v

/-- `rainbow_signs.get(k, [])`: first entry with the key, else the empty
list. -/
def dGet (d : List (String × List SFeature)) (k : String) : List SFeature :=
  match d with
  | [] => []
  | (k', vs) :: rest => if k' = k then vs else dGet rest k

/-- One iteration of the sign-index construction loop of `Command.handle`
(lines 60–65): a feature whose `SIGN_TP` equals `'RAINBOW'` and whose
`PMAID` is truthy is appended to its park's group; anything else is
dropped. -/
def signStep (d : List (String × List SFeature)) (f : SFeature) :
    List (String × List SFeature) :=
  if f.SIGN_TP = some "RAINBOW" then
    match f.PMAID with
    | some pid => if pid ≠ "" then dictAppend d pid f else d
    | none => d
  else d

/-- The sign-index construction loop of `Command.handle` (lines 59–65):
group the rainbow signs by `PMAID` in input order, starting from an empty
`defaultdict(list)`. -/
def indexSigns (sigs : List SFeature) : List (String × List SFeature) :=
  sigs.foldl signStep []

/-- `point[i]` read as a number: index into the point then use the entry as
a number, raising on a non-list point, a short point, or a non-numeric
entry. -/
def coordAt (p : Coords) (i : Nat) : Except Unit ℚ := do
  let l ← p.asList
  let c ← lIdx l i
  c.asNum

/-- `sum(point[i] for point in ring)` realised as the list of the `i`-th
coordinates; any malformed point raises. -/
def mapCoordAt (i : Nat) : List Coords → Except Unit (List ℚ)
  | [] => Except.ok []
  | p :: ps => do
    let q ← coordAt p i
    let qs ← mapCoordAt i ps
    Except.ok (q :: qs)

/-- Ring selection of `calculate_centroid_wgs84`: `coords[0][0]` for a
MultiPolygon, `coords[0]` for a Polygon; any other geometry type has no
selected ring (the Python code returns the sentinel there directly). -/
def selectRing (g : Geometry) : Except Unit Coords :=
  if g.type = "MultiPolygon" then do
    let l ← g.coordinates.asList
    let p0 ← lIdx l 0
    let pl ← p0.asList
    lIdx pl 0
  else if g.type = "Polygon" then do
    let l ← g.coordinates.asList
    lIdx l 0
  else Except.error ()

/-- `Command.calculate_centroid_wgs84`: average the selected ring's raw
vertex coordinates and project the single mean point; any failure
(unsupported type, malformed ring, empty ring / division by zero) yields
the sentinel `(0, 0)`. -/
def calculate_centroid_wgs84 (proj : ℚ → ℚ → ℚ × ℚ) (g : Geometry) : ℚ × ℚ :=
  match (do
    let ring ← selectRing g
    let pts ← ring.asList
    let xs ← mapCoordAt 0 pts
    let ys ← mapCoordAt 1 pts
    if pts.length = 0 then Except.error ()
    else Except.ok (proj (xs.sum / pts.length) (ys.sum / pts.length)) :
      Except Unit (ℚ × ℚ)) with
  | .ok p => p
  | .error _ => (0, 0)

/-- `list(self.transform_point(p[0], p[1]))` for one vertex. -/
def transformPointE (proj : ℚ → ℚ → ℚ × ℚ) (p : Coords) : Except Unit Coords := do
  let l ← p.asList
  let c0 ← lIdx l 0
  let x ← c0.asNum
  let c1 ← lIdx l 1
  let y ← c1.asNum
  let q := proj x y
  Except.ok (.list [.num q.1, .num q.2])

/-- A Python list comprehension over raw coordinate entries: apply `f` to
each element, propagating the first raised exception. -/
def mapListE (f : Coords → Except Unit Coords) : List Coords → Except Unit (List Coords)
  | [] => Except.ok []
  | x :: xs => do
    let y ← f x
    let ys ← mapListE f xs
    Except.ok (y :: ys)

/-- One ring of `transform_geometry`: iterate the ring as a list and
transform each vertex. -/
def transformRing (proj : ℚ → ℚ → ℚ × ℚ) (ring : Coords) : Except Unit Coords := do
  let l ← ring.asList
  let l' ← mapListE (transformPointE proj) l
  Except.ok (.list l')

/-- One polygon of a MultiPolygon in `transform_geometry`. -/
def transformPolygon (proj : ℚ → ℚ → ℚ × ℚ) (poly : Coords) : Except Unit Coords := do
  let l ← poly.asList
  let l' ← mapListE (transformRing proj) l
  Except.ok (.list l')

/-- `Command.transform_geometry`: rewrite every vertex of a Polygon or
MultiPolygon, rebuilding the same nesting; any other geometry type is
returned unchanged.  Exceptions raised on malformed coordinates propagate
to the caller (the per-feature handler in `handle`). -/
def transform_geometry (proj : ℚ → ℚ → ℚ × ℚ) (g : Geometry) : Except Unit Geometry :=
  if g.type = "Polygon" then do
    let rs ← g.coordinates.asList
    let rs' ← mapListE (transformRing proj) rs
    Except.ok ⟨g.type, .list rs'⟩
  else if g.type = "MultiPolygon" then do
    let ps ← g.coordinates.asList
    let ps' ← mapListE (transformPolygon proj) ps
    Except.ok ⟨g.type, .list ps'⟩
  else Except.ok g

/-- `sign['geometry']['coordinates']` followed by
`self.transform_point(sign_coords[0], sign_coords[1])` for a single matched
sign; raises on missing geometry, a non-list value, a short list, or
non-numeric entries. -/
def signPoint (proj : ℚ → ℚ → ℚ × ℚ) (s : SFeature) : Except Unit (ℚ × ℚ) := do
  let cs ← match s.geometry with
    | some c => Except.ok c
    | none => Except.error ()
  let l ← cs.asList
  let c0 ← lIdx l 0
  let x ← c0.asNum
  let c1 ← lIdx l 1
  let y ← c1.asNum
  Except.ok (proj x y)

/-- The sign-location collection loop of `handle` (lines 107–112), in input
order. -/
def collectSignLocations (proj : ℚ → ℚ → ℚ × ℚ) :
    List SFeature → Except Unit (List (ℚ × ℚ))
  | [] => Except.ok []
  | s :: rest => do
    let p ← signPoint proj s
    let ps ← collectSignLocations proj rest
    Except.ok (p :: ps)

/-- The Seattle-area bounding-box check of `handle` (line 115):
`-123 < longitude < -121 and 47 < latitude < 48`. -/
def inSeattle (lon lat : ℚ) : Bool :=
  decide (-123 < lon) && decide (lon < -121) && decide ((47 : ℚ) < lat) && decide (lat < 48)

/-- Python `round(q, 2)` on our rational model: scale by 100 and round to
the nearest integer, ties to the even integer (banker's rounding). -/
def pyRound2 (q : ℚ) : ℚ :=
  let s := q * 100
  let f := ⌊s⌋
  let r := s - (f : ℚ)
  let n : ℤ :=
    if r < 1 / 2 then f
    else if 1 / 2 < r then f + 1
    else if f % 2 = 0 then f else f + 1
  (n : ℚ) / 100

/-- Acres computation of `handle` (lines 124–128): `PARKSBND_AREA` must be
truthy (present and nonzero) for `acres` to be set to
`round(area_sqft / 43560.0, 2)`. -/
def acresOf (area : Option ℚ) : Option ℚ :=
  match area with
  | some a => if a ≠ 0 then some (pyRound2 (a / 43560)) else none
  | none => none

/-- External-id computation of `handle` (lines 130–131, 141):
`str(props.get('OBJECTID', ''))`, with the empty string normalised to
`NULL`. -/
def externalIdOf (o : Option Int) : Option String :=
  let s := match o with
    | some v => toString v
    | none => ""
  if s = "" then none else some s

/-- `Park.objects.update_or_create(pma_id=..., defaults=...)`: if a row with
the key exists its fields are overwritten with the new values, otherwise a
new row is appended; the Bool is Django's `created` flag. -/
def update_or_create (st : List Park) (key : String) (d : Park) : List Park × Bool :=
  if st.any (fun p => p.pma_id = key) then
    (st.map (fun p => if p.pma_id = key then d else p), false)
  else (st ++ [d], true)

/-- The `defaults` record passed to `update_or_create` (lines 134–146):
all the fields the command computes for one accepted boundary feature.
`c` is the computed centroid `(longitude, latitude)`, `locs` the collected
sign locations, `tg` the reprojected boundary geometry. -/
def parkRecord (c : ℚ × ℚ) (f : BFeature) (name pma_str : String) (has : Bool)
    (locs : List (ℚ × ℚ)) (tg : Geometry) : Park :=
  { pma_id := pma_str
    name := name
    latitude := c.2
    longitude := c.1
    acres := acresOf f.properties.PARKSBND_AREA
    external_id := externalIdOf f.properties.OBJECTID
    boundary_geojson := tg
    has_rainbow_sign := has
    rainbow_sign_locations := if locs.isEmpty then none else some locs }

/-- The body of the per-feature `try` block after the name and PMA checks
and the sign counters (lines 103–146): centroid, sign locations, bounding
box, geometry reprojection, field computation, upsert.  `Except.error`
models an exception reaching the per-feature handler; `Except.ok none`
models the bounding-box `continue`. -/
def tryBody (proj : ℚ → ℚ → ℚ × ℚ) (st : List Park) (f : BFeature)
    (name pma_str : String) (park_signs : List SFeature) (has : Bool) :
    Except Unit (Option (List Park × Bool)) := do
  let c := calculate_centroid_wgs84 proj f.geometry
  let locs ← collectSignLocations proj park_signs
  if inSeattle c.1 c.2 then do
    let tg ← transform_geometry proj f.geometry
    Except.ok (some (update_or_create st pma_str (parkRecord c f name pma_str has locs tg)))
  else Except.ok none

/-- One iteration of the boundary loop of `Command.handle` (lines 76–156):
name check, PMA check, sign counters, then the `try` body with its
exception handler mapping any raised exception to a skip. -/
def processFeature (proj : ℚ → ℚ → ℚ × ℚ) (index : String → List SFeature)
    (acc : List Park × Counters) (f : BFeature) : List Park × Counters :=
  let st := acc.1
  let c := acc.2
  let name := f.properties.NAME.getD "Unknown Park"
  if name = "" ∨ name = "Unknown Park" then (st, c.incSkipped)
  else
    match f.properties.PMA with
    | none => (st, c.incSkipped)
    | some pma =>
      let pma_str := toString pma
      let park_signs := index pma_str
      let has := decide (0 < park_signs.length)
      let c1 := if has then c.incWith else c.incWithout
      match tryBody proj st f name pma_str park_signs has with
      | .error _ => (st, c1.incSkipped)
      | .ok none => (st, c1.incSkipped)
      | .ok (some (st', created)) =>
        (st', if created then c1.incCreated else c1.incUpdated)

/-- A full run of `Command.handle` over already-loaded feature collections:
build the rainbow-sign index, then fold the per-feature step over the
boundary features starting from the given store and zeroed counters. -/
def ingest (proj : ℚ → ℚ → ℚ × ℚ) (boundaries : List BFeature)
    (signs : List SFeature) (st : List Park) : List Park × Counters :=
  boundaries.foldl (processFeature proj (fun k => dGet (indexSigns signs) k))
    (st, Counters.zero)

/-! ### Well-formed geometry constructors and computation lemmas -/

/-- A well-formed GeoJSON vertex `[x, y]`. -/
def pointC (p : ℚ × ℚ) : Coords := .list [.num p.1, .num p.2]

/-- A well-formed ring: a list of vertices. -/
def ringC (pts : List (ℚ × ℚ)) : Coords := .list (pts.map pointC)

/-- A well-formed Polygon geometry from its list of rings (outer ring
first). -/
def mkPolygon (rings : List (List (ℚ × ℚ))) : Geometry :=
  ⟨"Polygon", .list (rings.map ringC)⟩

/-- A well-formed MultiPolygon geometry from its list of polygons. -/
def mkMultiPolygon (polys : List (List (List (ℚ × ℚ)))) : Geometry :=
  ⟨"MultiPolygon", .list (polys.map (fun rs => Coords.list (rs.map ringC)))⟩

/-- The projector applied to a coordinate pair. -/
def projPair (proj : ℚ → ℚ → ℚ × ℚ) (p : ℚ × ℚ) : ℚ × ℚ := proj p.1 p.2

lemma ok_bind {α β : Type} (a : α) (f : α → Except Unit β) :
    (Except.ok a : Except Unit α) >>= f = f a := rfl

lemma error_bind {α β : Type} (e : Unit) (f : α → Except Unit β) :
    (Except.error e : Except Unit α) >>= f = Except.error e := rfl

lemma coordAt_pointC_zero (p : ℚ × ℚ) : coordAt (pointC p) 0 = Except.ok p.1 := rfl

lemma coordAt_pointC_one (p : ℚ × ℚ) : coordAt (pointC p) 1 = Except.ok p.2 := rfl

lemma mapCoordAt_zero (pts : List (ℚ × ℚ)) :
    mapCoordAt 0 (pts.map pointC) = Except.ok (pts.map Prod.fst) := by
  induction pts with
  | nil => rfl
  | cons p ps ih => simp [mapCoordAt, coordAt_pointC_zero, ih, ok_bind]

lemma mapCoordAt_one (pts : List (ℚ × ℚ)) :
    mapCoordAt 1 (pts.map pointC) = Except.ok (pts.map Prod.snd) := by
  induction pts with
  | nil => rfl
  | cons p ps ih => simp [mapCoordAt, coordAt_pointC_one, ih, ok_bind]

lemma centroid_mkPolygon (proj : ℚ → ℚ → ℚ × ℚ) (pts : List (ℚ × ℚ))
    (rest : List (List (ℚ × ℚ))) (h : pts ≠ []) :
    calculate_centroid_wgs84 proj (mkPolygon (pts :: rest)) =
      proj ((pts.map Prod.fst).sum / pts.length) ((pts.map Prod.snd).sum / pts.length) := by
  have hlen : pts.length ≠ 0 := by simpa using h
  simp [calculate_centroid_wgs84, selectRing, mkPolygon, ringC, Coords.asList, lIdx,
    mapCoordAt_zero, mapCoordAt_one, ok_bind, hlen]

lemma centroid_mkMultiPolygon (proj : ℚ → ℚ → ℚ × ℚ) (pts : List (ℚ × ℚ))
    (rest : List (List (ℚ × ℚ))) (restP : List (List (List (ℚ × ℚ)))) (h : pts ≠ []) :
    calculate_centroid_wgs84 proj (mkMultiPolygon ((pts :: rest) :: restP)) =
      proj ((pts.map Prod.fst).sum / pts.length) ((pts.map Prod.snd).sum / pts.length) := by
  have hlen : pts.length ≠ 0 := by simpa using h
  simp [calculate_centroid_wgs84, selectRing, mkMultiPolygon, ringC, Coords.asList, lIdx,
    mapCoordAt_zero, mapCoordAt_one, ok_bind, hlen]

lemma transformPointE_pointC (proj : ℚ → ℚ → ℚ × ℚ) (p : ℚ × ℚ) :
    transformPointE proj (pointC p) = Except.ok (pointC (projPair proj p)) := rfl

lemma mapListE_map {α : Type} (f : Coords → Except Unit Coords) (g h : α → Coords)
    (hx : ∀ x, f (g x) = Except.ok (h x)) (xs : List α) :
    mapListE f (xs.map g) = Except.ok (xs.map h) := by
  induction xs with
  | nil => rfl
  | cons x xs ih => simp [mapListE, hx, ih, ok_bind]

lemma transformRing_ringC (proj : ℚ → ℚ → ℚ × ℚ) (pts : List (ℚ × ℚ)) :
    transformRing proj (ringC pts) = Except.ok (ringC (pts.map (projPair proj))) := by
  simp [transformRing, ringC, Coords.asList, ok_bind,
    mapListE_map (transformPointE proj) pointC (fun p => pointC (projPair proj p))
      (transformPointE_pointC proj) pts, List.map_map]

lemma transformPolygon_rings (proj : ℚ → ℚ → ℚ × ℚ) (rs : List (List (ℚ × ℚ))) :
    transformPolygon proj (Coords.list (rs.map ringC)) =
      Except.ok (Coords.list ((rs.map (fun r => r.map (projPair proj))).map ringC)) := by
  simp [transformPolygon, Coords.asList, ok_bind,
    mapListE_map (transformRing proj) ringC (fun r => ringC (r.map (projPair proj)))
      (transformRing_ringC proj) rs, List.map_map]

lemma transform_mkPolygon (proj : ℚ → ℚ → ℚ × ℚ) (rs : List (List (ℚ × ℚ))) :
    transform_geometry proj (mkPolygon rs) =
      Except.ok (mkPolygon (rs.map (fun r => r.map (projPair proj)))) := by
  simp [transform_geometry, mkPolygon, Coords.asList, ok_bind,
    mapListE_map (transformRing proj) ringC (fun r => ringC (r.map (projPair proj)))
      (transformRing_ringC proj) rs, List.map_map]

lemma transform_mkMultiPolygon (proj : ℚ → ℚ → ℚ × ℚ) (ps : List (List (List (ℚ × ℚ)))) :
    transform_geometry proj (mkMultiPolygon ps) =
      Except.ok (mkMultiPolygon (ps.map (fun poly => poly.map (fun r => r.map (projPair proj))))) := by
  simp [transform_geometry, mkMultiPolygon, Coords.asList, ok_bind,
    mapListE_map (fun poly => transformPolygon proj poly)
      (fun rs => Coords.list (rs.map ringC))
      (fun rs => Coords.list ((rs.map (fun r => r.map (projPair proj))).map ringC))
      (fun rs => transformPolygon_rings proj rs) ps, List.map_map]

lemma transform_other (proj : ℚ → ℚ → ℚ × ℚ) (g : Geometry)
    (h1 : g.type ≠ "Polygon") (h2 : g.type ≠ "MultiPolygon") :
    transform_geometry proj g = Except.ok g := by
  simp [transform_geometry, h1, h2]

/-! ### Concrete projectors and values used in witnesses -/

/-- The identity projector, a concrete instance of the abstract
CoordinateProjector parameter. -/
def projId : ℚ → ℚ → ℚ × ℚ := fun x y => (x, y)

/-- The rational 95/2 = 47.5, built in lowest terms. -/
def latW : ℚ := ⟨95, 2, by norm_num, by norm_num⟩

/-- A constant projector landing inside the Seattle bounding box. -/
def projW : ℚ → ℚ → ℚ × ℚ := fun _ _ => (-122, latW)

/-- C3: for every Polygon geometry, `calculate_centroid_wgs84` returns the
projection of the arithmetic mean of the outer ring's raw planar vertices;
for every MultiPolygon it uses the outer ring of the first polygon; and for
a Polygon with ring `[(0,0),(0,2),(2,2),(2,0)]` the result is the
projection of `(1, 1)`. -/
theorem C3_centroid_vertex_average (proj : ℚ → ℚ → ℚ × ℚ) :
    (∀ (pts : List (ℚ × ℚ)) (rest : List (List (ℚ × ℚ))), pts ≠ [] →
      calculate_centroid_wgs84 proj (mkPolygon (pts :: rest)) =
        projPair proj ((pts.map Prod.fst).sum / pts.length,
          (pts.map Prod.snd).sum / pts.length)) ∧
    (∀ (pts : List (ℚ × ℚ)) (rest : List (List (ℚ × ℚ)))
        (restP : List (List (List (ℚ × ℚ)))), pts ≠ [] →
      calculate_centroid_wgs84 proj (mkMultiPolygon ((pts :: rest) :: restP)) =
        projPair proj ((pts.map Prod.fst).sum / pts.length,
          (pts.map Prod.snd).sum / pts.length)) ∧
    calculate_centroid_wgs84 proj (mkPolygon [[(0, 0), (0, 2), (2, 2), (2, 0)]]) =
      projPair proj (1, 1) := by
  refine ⟨?_, ?_, ?_⟩
  · intro pts rest h
    rw [centroid_mkPolygon proj pts rest h, projPair]
  · intro pts rest restP h
    rw [centroid_mkMultiPolygon proj pts rest restP h, projPair]
  · rw [centroid_mkPolygon proj _ [] (by simp), projPair]
    norm_num

/-- Witness for C3 at the one-vertex ring `[(3, 4)]` under `projW`. -/
theorem C3_centroid_vertex_average_witness :
    ([((3 : ℚ), (4 : ℚ))] ≠ []) ∧
    calculate_centroid_wgs84 projW (mkPolygon [[((3 : ℚ), (4 : ℚ))]]) =
      projPair projW (([((3 : ℚ), (4 : ℚ))].map Prod.fst).sum / [((3 : ℚ), (4 : ℚ))].length,
        ([((3 : ℚ), (4 : ℚ))].map Prod.snd).sum / [((3 : ℚ), (4 : ℚ))].length) :=
  ⟨by simp, (C3_centroid_vertex_average projW).1 [(3, 4)] [] (by simp)⟩

/-- C6: `transform_geometry` maps a Polygon/MultiPolygon to a geometry of
the same type and nesting shape with every vertex projected, and returns
any other geometry type unchanged. -/
theorem C6_reproject_shape (proj : ℚ → ℚ → ℚ × ℚ) :
    (∀ rs : List (List (ℚ × ℚ)),
      transform_geometry proj (mkPolygon rs) =
        Except.ok (mkPolygon (rs.map (fun r => r.map (projPair proj))))) ∧
    (∀ ps : List (List (List (ℚ × ℚ))),
      transform_geometry proj (mkMultiPolygon ps) =
        Except.ok (mkMultiPolygon
          (ps.map (fun poly => poly.map (fun r => r.map (projPair proj)))))) ∧
    (∀ g : Geometry, g.type ≠ "Polygon" → g.type ≠ "MultiPolygon" →
      transform_geometry proj g = Except.ok g) :=
  ⟨transform_mkPolygon proj, transform_mkMultiPolygon proj,
    fun g h1 h2 => transform_other proj g h1 h2⟩

/-- Witness for C6: a LineString passes through unchanged under `projId`. -/
theorem C6_reproject_shape_witness :
    transform_geometry projId ⟨"LineString", Coords.list []⟩ =
      Except.ok ⟨"LineString", Coords.list []⟩ :=
  (C6_reproject_shape projId).2.2 ⟨"LineString", Coords.list []⟩ (by decide) (by decide)

/-! ### Malformed rings and the centroid sentinel -/

/-- A raw vertex is usable by the centroid loop: a list of length at least
two whose first two entries are numbers. -/
def pointOK (p : Coords) : Bool :=
  match p with
  | .list (c0 :: c1 :: _) => c0.isNum && c1.isNum
  | _ => false

/-- The selected ring of a geometry exists, is a list, is non-empty, and
all its vertices are usable. -/
def selectedRingOK (g : Geometry) : Bool :=
  match selectRing g with
  | .error _ => false
  | .ok (.num _) => false
  | .ok (.list pts) => !pts.isEmpty && pts.all pointOK

lemma coordAt_ok_pointOK (p : Coords) (hx : ∃ x, coordAt p 0 = Except.ok x)
    (hy : ∃ y, coordAt p 1 = Except.ok y) : pointOK p = true := by
  obtain ⟨x, hx⟩ := hx
  obtain ⟨y, hy⟩ := hy
  cases p with
  | num q => simp [coordAt, Coords.asList, error_bind] at hx
  | list l =>
    cases l with
    | nil => simp [coordAt, Coords.asList, lIdx, ok_bind, error_bind] at hx
    | cons c0 rest =>
      cases rest with
      | nil => simp [coordAt, Coords.asList, lIdx, ok_bind, error_bind] at hy
      | cons c1 tail =>
        cases c0 with
        | num q0 =>
          cases c1 with
          | num q1 => rfl
          | list l1 =>
            simp [coordAt, Coords.asList, lIdx, List.get?, ok_bind, Coords.asNum] at hy
        | list l0 =>
          simp [coordAt, Coords.asList, lIdx, List.get?, ok_bind, Coords.asNum] at hx

lemma mapCoordAt_ok_mem (i : Nat) (pts : List Coords) (qs : List ℚ)
    (h : mapCoordAt i pts = Except.ok qs) :
    ∀ p ∈ pts, ∃ q, coordAt p i = Except.ok q := by
  induction pts generalizing qs with
  | nil => intro p hp; cases hp
  | cons p0 ps ih =>
    intro p hp
    cases hc : coordAt p0 i with
    | error e => rw [mapCoordAt, hc, error_bind] at h; cases h
    | ok q0 =>
      rw [mapCoordAt, hc, ok_bind] at h
      cases hr : mapCoordAt i ps with
      | error e => rw [hr, error_bind] at h; cases h
      | ok qs' =>
        rw [hr, ok_bind] at h
        rcases hp with _ | hp
        · exact ⟨q0, hc⟩
        · exact ih qs' hr p (by assumption)

/-- C4: for every geometry whose type is neither Polygon nor MultiPolygon,
and for every Polygon/MultiPolygon whose selected ring is empty or
malformed, the centroid is the sentinel `(0, 0)` for every projector (so no
projection takes place) and no error escapes (the function is total). -/
theorem C4_centroid_sentinel (proj : ℚ → ℚ → ℚ × ℚ) :
    (∀ g : Geometry, g.type ≠ "Polygon" → g.type ≠ "MultiPolygon" →
      calculate_centroid_wgs84 proj g = (0, 0)) ∧
    (∀ g : Geometry, selectedRingOK g = false →
      calculate_centroid_wgs84 proj g = (0, 0)) ∧
    calculate_centroid_wgs84 proj ⟨"LineString", ringC [(5, 6), (7, 8)]⟩ = (0, 0) := by
  have hmain : ∀ g : Geometry, selectedRingOK g = false →
      calculate_centroid_wgs84 proj g = (0, 0) := by
    intro g hOK
    unfold calculate_centroid_wgs84
    cases hs : selectRing g with
    | error e => simp [hs, error_bind]
    | ok r =>
      cases r with
      | num q => simp [hs, ok_bind, Coords.asList, error_bind]
      | list pts =>
        simp only [selectedRingOK, hs] at hOK
        cases h0 : mapCoordAt 0 pts with
        | error e => simp [hs, ok_bind, Coords.asList, h0, error_bind]
        | ok xs =>
          cases h1 : mapCoordAt 1 pts with
          | error e => simp [hs, ok_bind, Coords.asList, h0, h1, error_bind]
          | ok ys =>
            have hall : pts.all pointOK = true := by
              rw [List.all_eq_true]
              intro p hp
              exact coordAt_ok_pointOK p (mapCoordAt_ok_mem 0 pts xs h0 p hp)
                (mapCoordAt_ok_mem 1 pts ys h1 p hp)
            rw [hall, Bool.and_true] at hOK
            have hnil : pts = [] := by
              rcases pts with _ | ⟨a, l⟩
              · rfl
              · simp at hOK
            subst hnil
            simp [hs, ok_bind, Coords.asList, h0, h1, error_bind]
  refine ⟨?_, hmain, ?_⟩
  · intro g h1 h2
    have : selectedRingOK g = false := by
      simp [selectedRingOK, selectRing, h1, h2]
    exact hmain g this
  · exact hmain _ rfl

/-- Witness for C4 at a Polygon with an empty outer ring. -/
theorem C4_centroid_sentinel_witness :
    (selectedRingOK (mkPolygon [[]]) = false) ∧
    calculate_centroid_wgs84 projW (mkPolygon [[]]) = (0, 0) :=
  ⟨rfl, (C4_centroid_sentinel projW).2.1 (mkPolygon [[]]) rfl⟩

/-! ### The sign index as a filter -/

/-- The predicate under which a sign feature ends up in the group of park
id `k`: rainbow type, truthy `PMAID`, and `PMAID` equal to `k`. -/
def rainbowKeyed (k : String) (s : SFeature) : Bool :=
  decide (s.SIGN_TP = some "RAINBOW") &&
    match s.PMAID with
    | some pid => decide (pid ≠ "") && decide (pid = k)
    | none => false

lemma rainbowKeyed_true_iff (k : String) (s : SFeature) :
    rainbowKeyed k s = true ↔
      (s.SIGN_TP = some "RAINBOW" ∧ s.PMAID = some k ∧ k ≠ "") := by
  cases h : s.PMAID with
  | none => simp [rainbowKeyed, h]
  | some pid =>
    simp only [rainbowKeyed, h, Bool.and_eq_true, decide_eq_true_eq, Option.some.injEq]
    constructor
    · rintro ⟨h1, h2, h3⟩
      exact ⟨h1, h3, h3 ▸ h2⟩
    · rintro ⟨h1, h2, h3⟩
      exact ⟨h1, h2 ▸ h3, h2⟩

lemma dGet_dictAppend (d : List (String × List SFeature)) (k k' : String) (v : SFeature) :
    dGet (dictAppend d k' v) k =
      if k' = k then dGet d k ++ [v] else dGet d k := by
  induction d with
  | nil =>
    simp only [dictAppend, dGet]
    split_ifs <;> simp_all [dGet]
  | cons e rest ih =>
    obtain ⟨k0, vs⟩ := e
    simp only [dictAppend]
    by_cases h0 : k0 = k'
    · subst h0
      by_cases hk : k0 = k
      · subst hk; simp [dGet]
      · simp [dGet, hk, if_neg (by exact hk)]
    · simp only [if_neg h0, dGet, ih]
      by_cases hk : k0 = k
      · subst hk
        have : ¬ k' = k0 := fun hc => h0 hc.symm
        simp [this]
      · simp [hk]

lemma dGet_foldl_signStep (sigs : List SFeature) (d : List (String × List SFeature))
    (k : String) :
    dGet (sigs.foldl signStep d) k = dGet d k ++ sigs.filter (rainbowKeyed k) := by
  induction sigs generalizing d with
  | nil => simp
  | cons f fs ih =>
    rw [List.foldl_cons, ih, List.filter_cons]
    have hstep : dGet (signStep d f) k =
        dGet d k ++ (if rainbowKeyed k f then [f] else []) := by
      cases hTP : f.SIGN_TP with
      | none => simp [signStep, rainbowKeyed, hTP]
      | some tp =>
        by_cases htp : tp = "RAINBOW"
        · subst htp
          cases hP : f.PMAID with
          | none => simp [signStep, rainbowKeyed, hTP, hP]
          | some pid =>
            by_cases hpe : pid = ""
            · subst hpe; simp [signStep, rainbowKeyed, hTP, hP]
            · by_cases hpk : pid = k
              · subst hpk
                simp [signStep, rainbowKeyed, hTP, hP, hpe, dGet_dictAppend]
              · simp [signStep, rainbowKeyed, hTP, hP, hpe, hpk, dGet_dictAppend]
        · simp [signStep, rainbowKeyed, hTP, htp]
    rw [hstep]
    split_ifs <;> simp

/-- C7: the rainbow-sign index groups exactly the features whose `SIGN_TP`
equals `'RAINBOW'` and whose `PMAID` is present (truthy) and equal to the
looked-up key, in input order; consequently every indexed feature is a
rainbow feature keyed by its own `PMAID`, and a feature whose `SIGN_TP` is
not `'RAINBOW'` never appears in any park's group (so it can never
contribute a `rainbow_sign_locations` entry). -/
theorem C7_rainbow_filter (ss : List SFeature) (k : String) :
    dGet (indexSigns ss) k = ss.filter (rainbowKeyed k) ∧
    (∀ s ∈ dGet (indexSigns ss) k,
      s.SIGN_TP = some "RAINBOW" ∧ s.PMAID = some k ∧ k ≠ "") ∧
    (∀ (s : SFeature) (k' : String), s.SIGN_TP ≠ some "RAINBOW" →
      s ∉ dGet (indexSigns ss) k') := by
  have heq : ∀ k' : String, dGet (indexSigns ss) k' = ss.filter (rainbowKeyed k') := by
    intro k'
    rw [indexSigns, dGet_foldl_signStep]
    rfl
  refine ⟨heq k, ?_, ?_⟩
  · intro s hs
    rw [heq k, List.mem_filter] at hs
    exact (rainbowKeyed_true_iff k s).mp hs.2
  · intro s k' hTP hs
    rw [heq k', List.mem_filter] at hs
    exact hTP ((rainbowKeyed_true_iff k' s).mp hs.2).1

/-- Witness for C7: a non-rainbow sign with a matching `PMAID` is not
indexed under its park id. -/
theorem C7_rainbow_filter_witness :
    ((⟨some "DIRECTIONAL", some "1", none⟩ : SFeature).SIGN_TP ≠ some "RAINBOW") ∧
    (⟨some "DIRECTIONAL", some "1", none⟩ : SFeature) ∉
      dGet (indexSigns [⟨some "DIRECTIONAL", some "1", none⟩]) "1" :=
  ⟨by decide,
    (C7_rainbow_filter [⟨some "DIRECTIONAL", some "1", none⟩] "1").2.2
      ⟨some "DIRECTIONAL", some "1", none⟩ "1" (by decide)⟩

/-! ### Analysis of the per-feature step -/

lemma tryBody_sign_err (proj : ℚ → ℚ → ℚ × ℚ) (st : List Park) (f : BFeature)
    (name pma_str : String) (sgns : List SFeature) (has : Bool) (e : Unit)
    (hl : collectSignLocations proj sgns = Except.error e) :
    tryBody proj st f name pma_str sgns has = Except.error e := by
  simp [tryBody, hl, error_bind]

lemma tryBody_oob (proj : ℚ → ℚ → ℚ × ℚ) (st : List Park) (f : BFeature)
    (name pma_str : String) (sgns : List SFeature) (has : Bool) (locs : List (ℚ × ℚ))
    (hl : collectSignLocations proj sgns = Except.ok locs)
    (hin : inSeattle (calculate_centroid_wgs84 proj f.geometry).1
      (calculate_centroid_wgs84 proj f.geometry).2 = false) :
    tryBody proj st f name pma_str sgns has = Except.ok none := by
  simp [tryBody, hl, ok_bind, hin]

lemma tryBody_upsert (proj : ℚ → ℚ → ℚ × ℚ) (st : List Park) (f : BFeature)
    (name pma_str : String) (sgns : List SFeature) (has : Bool) (locs : List (ℚ × ℚ))
    (tg : Geometry)
    (hl : collectSignLocations proj sgns = Except.ok locs)
    (hin : inSeattle (calculate_centroid_wgs84 proj f.geometry).1
      (calculate_centroid_wgs84 proj f.geometry).2 = true)
    (ht : transform_geometry proj f.geometry = Except.ok tg) :
    tryBody proj st f name pma_str sgns has =
      Except.ok (some (update_or_create st pma_str
        (parkRecord (calculate_centroid_wgs84 proj f.geometry) f name pma_str has locs tg))) := by
  simp [tryBody, hl, ok_bind, hin, ht]

lemma tryBody_ok_some_inv (proj : ℚ → ℚ → ℚ × ℚ) (st : List Park) (f : BFeature)
    (name pma_str : String) (sgns : List SFeature) (has : Bool)
    (x : List Park × Bool)
    (h : tryBody proj st f name pma_str sgns has = Except.ok (some x)) :
    ∃ locs tg,
      collectSignLocations proj sgns = Except.ok locs ∧
      inSeattle (calculate_centroid_wgs84 proj f.geometry).1
        (calculate_centroid_wgs84 proj f.geometry).2 = true ∧
      transform_geometry proj f.geometry = Except.ok tg ∧
      x = update_or_create st pma_str
        (parkRecord (calculate_centroid_wgs84 proj f.geometry) f name pma_str has locs tg) := by
  cases hl : collectSignLocations proj sgns with
  | error e => rw [tryBody_sign_err proj st f name pma_str sgns has e hl] at h; cases h
  | ok locs =>
    cases hin : inSeattle (calculate_centroid_wgs84 proj f.geometry).1
        (calculate_centroid_wgs84 proj f.geometry).2 with
    | false =>
      rw [tryBody_oob proj st f name pma_str sgns has locs hl hin] at h
      cases h
    | true =>
      cases ht : transform_geometry proj f.geometry with
      | error e =>
        simp [tryBody, hl, ok_bind, hin, ht, error_bind] at h
      | ok tg =>
        rw [tryBody_upsert proj st f name pma_str sgns has locs tg hl hin ht] at h
        cases h
        exact ⟨locs, tg, rfl, rfl, rfl, rfl⟩

lemma processFeature_eq (proj : ℚ → ℚ → ℚ × ℚ) (index : String → List SFeature)
    (st : List Park) (c : Counters) (f : BFeature) (n : String) (pma : Int)
    (hn : f.properties.NAME = some n) (hn1 : n ≠ "") (hn2 : n ≠ "Unknown Park")
    (hp : f.properties.PMA = some pma) :
    processFeature proj index (st, c) f =
      (match tryBody proj st f n (toString pma) (index (toString pma))
          (decide (0 < (index (toString pma)).length)) with
      | .error _ =>
        (st, ((if decide (0 < (index (toString pma)).length) then c.incWith
          else c.incWithout)).incSkipped)
      | .ok none =>
        (st, ((if decide (0 < (index (toString pma)).length) then c.incWith
          else c.incWithout)).incSkipped)
      | .ok (some (st', created)) =>
        (st', if created then
          ((if decide (0 < (index (toString pma)).length) then c.incWith
            else c.incWithout)).incCreated
        else
          ((if decide (0 < (index (toString pma)).length) then c.incWith
            else c.incWithout)).incUpdated)) := by
  have hcond : ¬ (n = "" ∨ n = "Unknown Park") := by simp [hn1, hn2]
  rw [processFeature]
  simp only [hp, hn, Option.getD_some]
  rw [if_neg hcond]

lemma update_or_create_nil (key : String) (d : Park) :
    update_or_create [] key d = ([d], true) := by
  simp [update_or_create]

lemma update_or_create_hit (key : String) (d p : Park) (hp : p.pma_id = key) :
    update_or_create [p] key d = ([d], false) := by
  simp [update_or_create, hp]

lemma collectSignLocations_length (proj : ℚ → ℚ → ℚ × ℚ) (sgns : List SFeature)
    (locs : List (ℚ × ℚ)) (h : collectSignLocations proj sgns = Except.ok locs) :
    locs.length = sgns.length := by
  induction sgns generalizing locs with
  | nil => rw [collectSignLocations] at h; cases h; rfl
  | cons s rest ih =>
    rw [collectSignLocations] at h
    cases hs : signPoint proj s with
    | error e => rw [hs, error_bind] at h; cases h
    | ok p =>
      rw [hs, ok_bind] at h
      cases hr : collectSignLocations proj rest with
      | error e => rw [hr, error_bind] at h; cases h
      | ok ps =>
        rw [hr, ok_bind] at h
        cases h
        simp [ih ps hr]

/-- A constant projector landing at the sentinel, outside Seattle. -/
def projOut : ℚ → ℚ → ℚ × ℚ := fun _ _ => (0, 0)

/-- A simple valid boundary feature used in witnesses. -/
def fW : BFeature := ⟨⟨some "A", some 1, none, none⟩, mkPolygon [[(0, 0)]]⟩

/-- C5: a boundary feature that passes the name and PMA checks is upserted
only when its computed centroid satisfies the strict Seattle bounds; when
the bounds fail the store is untouched and the feature is counted in
`skipped`; and concretely `(-122.33, 47.6)` passes the bounds while
`(0, 0)` and `(-130, 10)` fail them. -/
theorem C5_bounding_box (proj : ℚ → ℚ → ℚ × ℚ) (index : String → List SFeature)
    (st : List Park) (c : Counters) (f : BFeature) (n : String) (pma : Int)
    (hn : f.properties.NAME = some n) (hn1 : n ≠ "") (hn2 : n ≠ "Unknown Park")
    (hp : f.properties.PMA = some pma) :
    (inSeattle (calculate_centroid_wgs84 proj f.geometry).1
        (calculate_centroid_wgs84 proj f.geometry).2 = false →
      processFeature proj index (st, c) f =
        (st, ((if decide (0 < (index (toString pma)).length) then c.incWith
          else c.incWithout)).incSkipped)) ∧
    (∀ (locs : List (ℚ × ℚ)) (tg : Geometry),
      collectSignLocations proj (index (toString pma)) = Except.ok locs →
      inSeattle (calculate_centroid_wgs84 proj f.geometry).1
        (calculate_centroid_wgs84 proj f.geometry).2 = true →
      transform_geometry proj f.geometry = Except.ok tg →
      processFeature proj index (st, c) f =
        ((update_or_create st (toString pma)
            (parkRecord (calculate_centroid_wgs84 proj f.geometry) f n (toString pma)
              (decide (0 < (index (toString pma)).length)) locs tg)).1,
          if (update_or_create st (toString pma)
              (parkRecord (calculate_centroid_wgs84 proj f.geometry) f n (toString pma)
                (decide (0 < (index (toString pma)).length)) locs tg)).2 then
            ((if decide (0 < (index (toString pma)).length) then c.incWith
              else c.incWithout)).incCreated
          else
            ((if decide (0 < (index (toString pma)).length) then c.incWith
              else c.incWithout)).incUpdated) ∧
      (processFeature proj index (st, c) f).2.skipped = c.skipped) ∧
    inSeattle (-12233 / 100) (476 / 10) = true ∧
    inSeattle 0 0 = false ∧
    inSeattle (-130) 10 = false := by
  refine ⟨?_, ?_, ?_, ?_, ?_⟩
  · intro hin
    rw [processFeature_eq proj index st c f n pma hn hn1 hn2 hp]
    cases hl : collectSignLocations proj (index (toString pma)) with
    | error e =>
      rw [tryBody_sign_err proj st f n (toString pma) (index (toString pma)) _ e hl]
    | ok locs =>
      rw [tryBody_oob proj st f n (toString pma) (index (toString pma)) _ locs hl hin]
  · intro locs tg hl hin ht
    have hpf : processFeature proj index (st, c) f = _ :=
      processFeature_eq proj index st c f n pma hn hn1 hn2 hp
    rw [tryBody_upsert proj st f n (toString pma) (index (toString pma))
      (decide (0 < (index (toString pma)).length)) locs tg hl hin ht] at hpf
    rcases hu : update_or_create st (toString pma)
        (parkRecord (calculate_centroid_wgs84 proj f.geometry) f n (toString pma)
          (decide (0 < (index (toString pma)).length)) locs tg) with ⟨st2, cr2⟩
    rw [hu] at hpf
    refine ⟨hpf, ?_⟩
    rw [hpf]
    cases cr2 <;> split_ifs <;>
      simp [Counters.incCreated, Counters.incUpdated, Counters.incWith, Counters.incWithout]
  · simp only [inSeattle, Bool.and_eq_true, decide_eq_true_eq]
    norm_num
  · simp only [inSeattle, Bool.and_eq_true, decide_eq_true_eq]
    norm_num
  · simp only [inSeattle, Bool.and_eq_true, decide_eq_true_eq]
    norm_num

/-- Witness for C5: a centroid at the sentinel `(0, 0)` is rejected and
counted in `skipped`. -/
theorem C5_bounding_box_witness :
    processFeature projOut (fun _ => []) ([], Counters.zero) fW =
      ([], Counters.zero.incWithout.incSkipped) :=
  (C5_bounding_box projOut (fun _ => []) [] Counters.zero fW "A" 1 rfl
    (by decide) (by decide) rfl).1 (by decide)

/-! ### Counter bookkeeping across the loop -/

/-- A boundary feature passes the name and PMA checks (steps 1–2), i.e.
reaches the sign-counter increments. -/
def namePmaOk (f : BFeature) : Bool :=
  !(decide (f.properties.NAME.getD "Unknown Park" = "" ∨
    f.properties.NAME.getD "Unknown Park" = "Unknown Park")) && f.properties.PMA.isSome

lemma processFeature_skip_name (proj : ℚ → ℚ → ℚ × ℚ) (index : String → List SFeature)
    (st : List Park) (c : Counters) (f : BFeature)
    (h1 : f.properties.NAME.getD "Unknown Park" = "" ∨
      f.properties.NAME.getD "Unknown Park" = "Unknown Park") :
    processFeature proj index (st, c) f = (st, c.incSkipped) := by
  simp [processFeature, h1]

lemma processFeature_skip_pma (proj : ℚ → ℚ → ℚ × ℚ) (index : String → List SFeature)
    (st : List Park) (c : Counters) (f : BFeature)
    (h1 : ¬ (f.properties.NAME.getD "Unknown Park" = "" ∨
      f.properties.NAME.getD "Unknown Park" = "Unknown Park"))
    (hp : f.properties.PMA = none) :
    processFeature proj index (st, c) f = (st, c.incSkipped) := by
  simp [processFeature, h1, hp]

lemma processFeature_fst_indep (proj : ℚ → ℚ → ℚ × ℚ) (index : String → List SFeature)
    (st : List Park) (c c' : Counters) (f : BFeature) :
    (processFeature proj index (st, c) f).1 = (processFeature proj index (st, c') f).1 := by
  by_cases h1 : (f.properties.NAME.getD "Unknown Park" = "" ∨
      f.properties.NAME.getD "Unknown Park" = "Unknown Park")
  · rw [processFeature_skip_name proj index st c f h1,
      processFeature_skip_name proj index st c' f h1]
  · cases hnn : f.properties.NAME with
    | none => exact absurd (by simp [hnn]) h1
    | some n =>
      rw [hnn, Option.getD_some] at h1
      push_neg at h1
      cases hp : f.properties.PMA with
      | none =>
        rw [processFeature_skip_pma proj index st c f (by simp [hnn, h1.1, h1.2]) hp,
          processFeature_skip_pma proj index st c' f (by simp [hnn, h1.1, h1.2]) hp]
      | some pma =>
        rw [processFeature_eq proj index st c f n pma hnn h1.1 h1.2 hp,
          processFeature_eq proj index st c' f n pma hnn h1.1 h1.2 hp]
        cases htb : tryBody proj st f n (toString pma) (index (toString pma))
            (decide (0 < (index (toString pma)).length)) with
        | error e => rfl
        | ok o =>
          cases o with
          | none => rfl
          | some pr => rcases pr with ⟨st2, cr⟩; rfl

lemma processFeature_cus (proj : ℚ → ℚ → ℚ × ℚ) (index : String → List SFeature)
    (st : List Park) (c : Counters) (f : BFeature) :
    (processFeature proj index (st, c) f).2.created +
      (processFeature proj index (st, c) f).2.updated +
      (processFeature proj index (st, c) f).2.skipped =
    c.created + c.updated + c.skipped + 1 := by
  by_cases h1 : (f.properties.NAME.getD "Unknown Park" = "" ∨
      f.properties.NAME.getD "Unknown Park" = "Unknown Park")
  · rw [processFeature_skip_name proj index st c f h1]
    simp [Counters.incSkipped]
    omega
  · cases hnn : f.properties.NAME with
    | none => exact absurd (by simp [hnn]) h1
    | some n =>
      rw [hnn, Option.getD_some] at h1
      push_neg at h1
      cases hp : f.properties.PMA with
      | none =>
        rw [processFeature_skip_pma proj index st c f (by simp [hnn, h1.1, h1.2]) hp]
        simp [Counters.incSkipped]
        omega
      | some pma =>
        rw [processFeature_eq proj index st c f n pma hnn h1.1 h1.2 hp]
        cases htb : tryBody proj st f n (toString pma) (index (toString pma))
            (decide (0 < (index (toString pma)).length)) with
        | error e =>
          split_ifs <;>
            simp [Counters.incSkipped, Counters.incWith, Counters.incWithout] <;> omega
        | ok o =>
          cases o with
          | none =>
            split_ifs <;>
              simp [Counters.incSkipped, Counters.incWith, Counters.incWithout] <;> omega
          | some pr =>
            rcases pr with ⟨st2, cr⟩
            cases cr <;> split_ifs <;>
              simp [Counters.incCreated, Counters.incUpdated,
                Counters.incWith, Counters.incWithout] <;> omega

lemma processFeature_ww (proj : ℚ → ℚ → ℚ × ℚ) (index : String → List SFeature)
    (st : List Park) (c : Counters) (f : BFeature) :
    (processFeature proj index (st, c) f).2.with_signs +
      (processFeature proj index (st, c) f).2.without_signs =
    c.with_signs + c.without_signs + (if namePmaOk f then 1 else 0) := by
  by_cases h1 : (f.properties.NAME.getD "Unknown Park" = "" ∨
      f.properties.NAME.getD "Unknown Park" = "Unknown Park")
  · rw [processFeature_skip_name proj index st c f h1]
    simp [namePmaOk, h1, Counters.incSkipped]
  · cases hnn : f.properties.NAME with
    | none => exact absurd (by simp [hnn]) h1
    | some n =>
      rw [hnn, Option.getD_some] at h1
      push_neg at h1
      cases hp : f.properties.PMA with
      | none =>
        rw [processFeature_skip_pma proj index st c f (by simp [hnn, h1.1, h1.2]) hp]
        simp [namePmaOk, hp, Counters.incSkipped]
      | some pma =>
        have hok : namePmaOk f = true := by
          simp [namePmaOk, hnn, h1.1, h1.2, hp]
        rw [processFeature_eq proj index st c f n pma hnn h1.1 h1.2 hp, hok]
        cases htb : tryBody proj st f n (toString pma) (index (toString pma))
            (decide (0 < (index (toString pma)).length)) with
        | error e =>
          split_ifs <;>
            simp_all [Counters.incSkipped, Counters.incWith, Counters.incWithout] <;> omega
        | ok o =>
          cases o with
          | none =>
            split_ifs <;>
              simp_all [Counters.incSkipped, Counters.incWith, Counters.incWithout] <;> omega
          | some pr =>
            rcases pr with ⟨st2, cr⟩
            cases cr <;> split_ifs <;>
              simp_all [Counters.incCreated, Counters.incUpdated,
                Counters.incWith, Counters.incWithout] <;> omega

lemma foldl_cus (proj : ℚ → ℚ → ℚ × ℚ) (index : String → List SFeature)
    (bs : List BFeature) : ∀ (st : List Park) (c : Counters),
    ((bs.foldl (processFeature proj index) (st, c)).2.created +
      (bs.foldl (processFeature proj index) (st, c)).2.updated +
      (bs.foldl (processFeature proj index) (st, c)).2.skipped) =
    c.created + c.updated + c.skipped + bs.length := by
  induction bs with
  | nil => intro st c; simp
  | cons f bs ih =>
    intro st c
    rcases hpf : processFeature proj index (st, c) f with ⟨st1, c1⟩
    have h1 := processFeature_cus proj index st c f
    rw [hpf] at h1
    rw [List.foldl_cons, hpf, ih st1 c1]
    simp at h1
    simp [List.length_cons]
    omega

lemma foldl_ww (proj : ℚ → ℚ → ℚ × ℚ) (index : String → List SFeature)
    (bs : List BFeature) : ∀ (st : List Park) (c : Counters),
    ((bs.foldl (processFeature proj index) (st, c)).2.with_signs +
      (bs.foldl (processFeature proj index) (st, c)).2.without_signs) =
    c.with_signs + c.without_signs + (bs.filter namePmaOk).length := by
  induction bs with
  | nil => intro st c; simp
  | cons f bs ih =>
    intro st c
    rcases hpf : processFeature proj index (st, c) f with ⟨st1, c1⟩
    have h1 := processFeature_ww proj index st c f
    rw [hpf] at h1
    rw [List.foldl_cons, hpf, ih st1 c1, List.filter_cons]
    simp at h1
    by_cases hok : namePmaOk f
    · simp [hok] at h1 ⊢
      omega
    · simp [hok] at h1 ⊢
      omega

lemma foldl_fst_indep (proj : ℚ → ℚ → ℚ × ℚ) (index : String → List SFeature)
    (bs : List BFeature) : ∀ (st : List Park) (c c' : Counters),
    (bs.foldl (processFeature proj index) (st, c)).1 =
      (bs.foldl (processFeature proj index) (st, c')).1 := by
  induction bs with
  | nil => intro st c c'; rfl
  | cons f bs ih =>
    intro st c c'
    rcases hpf : processFeature proj index (st, c) f with ⟨st1, c1⟩
    rcases hpf' : processFeature proj index (st, c') f with ⟨st1', c1'⟩
    have : st1 = st1' := by
      have h := processFeature_fst_indep proj index st c c' f
      rw [hpf, hpf'] at h
      exact h
    subst this
    rw [List.foldl_cons, List.foldl_cons, hpf, hpf']
    exact ih st1 c1 c1'

/-- C10: over any run, every boundary feature increments exactly one of
`created`/`updated`/`skipped`, so the three sum to the number of boundary
features; and `with_signs`/`without_signs` are incremented for exactly the
features passing the name and PMA checks (before centroid validation), so
their sum counts those features regardless of later skips. -/
theorem C10_counter_partition (proj : ℚ → ℚ → ℚ × ℚ) (bs : List BFeature)
    (ss : List SFeature) (st : List Park) :
    ((ingest proj bs ss st).2.created + (ingest proj bs ss st).2.updated +
      (ingest proj bs ss st).2.skipped = bs.length) ∧
    ((ingest proj bs ss st).2.with_signs + (ingest proj bs ss st).2.without_signs =
      (bs.filter namePmaOk).length) ∧
    (∀ (st' : List Park) (c' : Counters) (f : BFeature),
      (processFeature proj (fun k => dGet (indexSigns ss) k) (st', c') f).2.created +
        (processFeature proj (fun k => dGet (indexSigns ss) k) (st', c') f).2.updated +
        (processFeature proj (fun k => dGet (indexSigns ss) k) (st', c') f).2.skipped =
      c'.created + c'.updated + c'.skipped + 1) := by
  refine ⟨?_, ?_, ?_⟩
  · have h := foldl_cus proj (fun k => dGet (indexSigns ss) k) bs st Counters.zero
    simpa [ingest, Counters.zero] using h
  · have h := foldl_ww proj (fun k => dGet (indexSigns ss) k) bs st Counters.zero
    simpa [ingest, Counters.zero] using h
  · intro st' c' f
    exact processFeature_cus proj (fun k => dGet (indexSigns ss) k) st' c' f

/-- A rainbow sign feature with no geometry, whose processing raises. -/
def sErr : SFeature := ⟨some "RAINBOW", some "1", none⟩

/-- C8: when an exception is raised inside the per-feature `try` block of a
feature that passed the name and PMA checks, the feature is skipped (store
untouched, `skipped` incremented once), and the loop continues: the run
over `f :: bs` proceeds to fold over `bs`, and its final store is the same
as if `f` had not been present. -/
theorem C8_exception_skip (proj : ℚ → ℚ → ℚ × ℚ) (index : String → List SFeature)
    (st : List Park) (c : Counters) (f : BFeature) (n : String) (pma : Int) (e : Unit)
    (bs : List BFeature)
    (hn : f.properties.NAME = some n) (hn1 : n ≠ "") (hn2 : n ≠ "Unknown Park")
    (hp : f.properties.PMA = some pma)
    (htb : tryBody proj st f n (toString pma) (index (toString pma))
      (decide (0 < (index (toString pma)).length)) = Except.error e) :
    processFeature proj index (st, c) f =
      (st, ((if decide (0 < (index (toString pma)).length) then c.incWith
        else c.incWithout)).incSkipped) ∧
    (processFeature proj index (st, c) f).2.skipped = c.skipped + 1 ∧
    (f :: bs).foldl (processFeature proj index) (st, c) =
      bs.foldl (processFeature proj index) (processFeature proj index (st, c) f) ∧
    ((f :: bs).foldl (processFeature proj index) (st, c)).1 =
      (bs.foldl (processFeature proj index) (st, c)).1 := by
  have h1 : processFeature proj index (st, c) f =
      (st, ((if decide (0 < (index (toString pma)).length) then c.incWith
        else c.incWithout)).incSkipped) := by
    rw [processFeature_eq proj index st c f n pma hn hn1 hn2 hp, htb]
  refine ⟨h1, ?_, ?_, ?_⟩
  · rw [h1]
    split_ifs <;> simp [Counters.incSkipped, Counters.incWith, Counters.incWithout]
  · rw [List.foldl_cons]
  · rw [List.foldl_cons, h1]
    exact foldl_fst_indep proj index bs st _ c

/-- Witness for C8: a rainbow sign with no geometry raises while its park's
feature is processed; the feature is skipped and the (empty) rest of the
run is unaffected. -/
theorem C8_exception_skip_witness :
    processFeature projW (fun _ => [sErr]) ([], Counters.zero) fW =
      ([], Counters.zero.incWith.incSkipped) :=
  (C8_exception_skip projW (fun _ => [sErr]) [] Counters.zero fW "A" 1 () []
    rfl (by decide) (by decide) rfl rfl).1

/-! ### The rainbow-sign invariant over the store -/

/-- The C2 invariant for one stored record: the flag holds exactly when the
serialized location list is present and non-empty, locations are one per
matched sign, and the flag reflects a non-empty group in the sign index. -/
def rainbowInvariant (ss : List SFeature) (p : Park) : Prop :=
  (p.has_rainbow_sign = true ↔ ∃ l, p.rainbow_sign_locations = some l ∧ l ≠ []) ∧
  (∀ l, p.rainbow_sign_locations = some l →
    l.length = (dGet (indexSigns ss) p.pma_id).length) ∧
  (p.has_rainbow_sign = true ↔ dGet (indexSigns ss) p.pma_id ≠ [])

lemma mem_update_or_create (st : List Park) (key : String) (d p : Park)
    (hp : p ∈ (update_or_create st key d).1) : p ∈ st ∨ p = d := by
  unfold update_or_create at hp
  split_ifs at hp
  · simp only [List.mem_map] at hp
    rcases hp with ⟨q, hq, he⟩
    by_cases hc : q.pma_id = key
    · rw [if_pos hc] at he
      exact Or.inr he.symm
    · rw [if_neg hc] at he
      exact Or.inl (he ▸ hq)
  · simp only [List.mem_append, List.mem_singleton] at hp
    exact hp

lemma processFeature_mem (proj : ℚ → ℚ → ℚ × ℚ) (index : String → List SFeature)
    (st : List Park) (c : Counters) (f : BFeature) (p : Park)
    (hp : p ∈ (processFeature proj index (st, c) f).1) :
    p ∈ st ∨
    ∃ locs, collectSignLocations proj (index p.pma_id) = Except.ok locs ∧
      p.has_rainbow_sign = decide (0 < (index p.pma_id).length) ∧
      p.rainbow_sign_locations = (if locs.isEmpty then none else some locs) := by
  by_cases h1 : (f.properties.NAME.getD "Unknown Park" = "" ∨
      f.properties.NAME.getD "Unknown Park" = "Unknown Park")
  · rw [processFeature_skip_name proj index st c f h1] at hp
    exact Or.inl hp
  · cases hnn : f.properties.NAME with
    | none => exact absurd (by simp [hnn]) h1
    | some n =>
      rw [hnn, Option.getD_some] at h1
      push_neg at h1
      cases hpm : f.properties.PMA with
      | none =>
        rw [processFeature_skip_pma proj index st c f (by simp [hnn, h1.1, h1.2]) hpm] at hp
        exact Or.inl hp
      | some pma =>
        rw [processFeature_eq proj index st c f n pma hnn h1.1 h1.2 hpm] at hp
        cases htb : tryBody proj st f n (toString pma) (index (toString pma))
            (decide (0 < (index (toString pma)).length)) with
        | error e =>
          rw [htb] at hp
          exact Or.inl hp
        | ok o =>
          cases o with
          | none =>
            rw [htb] at hp
            exact Or.inl hp
          | some pr =>
            rcases pr with ⟨st2, cr⟩
            rw [htb] at hp
            simp only at hp
            obtain ⟨locs, tg, hl, hin, ht, hx⟩ :=
              tryBody_ok_some_inv proj st f n (toString pma) (index (toString pma))
                (decide (0 < (index (toString pma)).length)) (st2, cr) htb
            have hst2 : st2 = (update_or_create st (toString pma)
                (parkRecord (calculate_centroid_wgs84 proj f.geometry) f n (toString pma)
                  (decide (0 < (index (toString pma)).length)) locs tg)).1 := by
              rw [← hx]
            rw [hst2] at hp
            rcases mem_update_or_create _ _ _ p hp with hmem | heq
            · exact Or.inl hmem
            · subst heq
              exact Or.inr ⟨locs, hl, rfl, rfl⟩

lemma ingest_inv_aux (proj : ℚ → ℚ → ℚ × ℚ) (ss : List SFeature) (bs : List BFeature) :
    ∀ (st : List Park) (c : Counters),
    (∀ p ∈ st, rainbowInvariant ss p) →
    ∀ p ∈ (bs.foldl (processFeature proj (fun k => dGet (indexSigns ss) k)) (st, c)).1,
      rainbowInvariant ss p := by
  induction bs with
  | nil => intro st c h p hp; exact h p hp
  | cons f bs ih =>
    intro st c h p hp
    rw [List.foldl_cons] at hp
    rcases hpf : processFeature proj (fun k => dGet (indexSigns ss) k) (st, c) f
      with ⟨st1, c1⟩
    rw [hpf] at hp
    refine ih st1 c1 ?_ p hp
    intro q hq
    have hm := processFeature_mem proj (fun k => dGet (indexSigns ss) k) st c f q
      (by rw [hpf]; exact hq)
    rcases hm with hq' | ⟨locs, hl, hhas, hloc⟩
    · exact h q hq'
    · have hlen := collectSignLocations_length proj _ locs hl
      by_cases hz : (dGet (indexSigns ss) q.pma_id).length = 0
      · have hlocs : locs = [] := List.length_eq_zero.mp (hlen.trans hz)
        rw [hlocs] at hloc
        simp only [List.isEmpty_nil, if_pos] at hloc
        have hhf : q.has_rainbow_sign = false := by
          rw [hhas, hz]
          simp
        refine ⟨?_, ?_, ?_⟩
        · constructor
          · intro hb; rw [hhf] at hb; cases hb
          · rintro ⟨l, hsome, _⟩; rw [hloc] at hsome; cases hsome
        · intro l hsome; rw [hloc] at hsome; cases hsome
        · constructor
          · intro hb; rw [hhf] at hb; cases hb
          · intro hne; exact absurd (List.length_eq_zero.mp hz) hne
      · have hpos : 0 < (dGet (indexSigns ss) q.pma_id).length := Nat.pos_of_ne_zero hz
        have hlocs : locs ≠ [] := by
          intro hcon
          rw [hcon] at hlen
          exact hz hlen.symm
        have hloc' : q.rainbow_sign_locations = some locs := by
          rw [hloc, if_neg]
          simp [List.isEmpty_iff, hlocs]
        have hht : q.has_rainbow_sign = true := by
          rw [hhas]
          simpa using hpos
        refine ⟨?_, ?_, ?_⟩
        · constructor
          · intro _; exact ⟨locs, hloc', hlocs⟩
          · intro _; exact hht
        · intro l hsome
          rw [hloc'] at hsome
          rw [← Option.some.inj hsome]
          exact hlen
        · constructor
          · intro _
            intro hcon
            rw [hcon] at hpos
            simp at hpos
          · intro _; exact hht

/-- C2: every record the ingestor stores (starting from an empty store)
satisfies `has_rainbow_sign = true` iff `rainbow_sign_locations` is a
present non-empty list; its location list has one entry per matched sign
in the rainbow index; and the flag is set exactly when the index has a
non-empty group for the record's id. -/
theorem C2_rainbow_invariant (proj : ℚ → ℚ → ℚ × ℚ) (bs : List BFeature)
    (ss : List SFeature) :
    ∀ p ∈ (ingest proj bs ss []).1,
      (p.has_rainbow_sign = true ↔ ∃ l, p.rainbow_sign_locations = some l ∧ l ≠ []) ∧
      (∀ l, p.rainbow_sign_locations = some l →
        l.length = (dGet (indexSigns ss) p.pma_id).length) ∧
      (p.has_rainbow_sign = true ↔ dGet (indexSigns ss) p.pma_id ≠ []) := by
  intro p hp
  exact ingest_inv_aux proj ss bs [] Counters.zero (by intro q hq; cases hq) p hp

/-- A well-formed rainbow sign for park `1`. -/
def sW : SFeature := ⟨some "RAINBOW", some "1", some (pointC (0, 0))⟩

/-- The record the witness run stores for `fW` with sign `sW` under
`projW`. -/
def pW : Park :=
  { pma_id := "1"
    name := "A"
    latitude := latW
    longitude := -122
    acres := none
    external_id := none
    boundary_geojson := mkPolygon [[(-122, latW)]]
    has_rainbow_sign := true
    rainbow_sign_locations := some [(-122, latW)] }

/-- Witness for C2 at the record stored by a concrete one-feature run. -/
theorem C2_rainbow_invariant_witness :
    (pW.has_rainbow_sign = true ↔ ∃ l, pW.rainbow_sign_locations = some l ∧ l ≠ []) ∧
    (∀ l, pW.rainbow_sign_locations = some l →
      l.length = (dGet (indexSigns [sW]) pW.pma_id).length) ∧
    (pW.has_rainbow_sign = true ↔ dGet (indexSigns [sW]) pW.pma_id ≠ []) :=
  C2_rainbow_invariant projW [fW] [sW] pW (List.Mem.head [])

/-! ### Upserting into small stores -/

lemma processFeature_upsert_nil (proj : ℚ → ℚ → ℚ × ℚ) (index : String → List SFeature)
    (c : Counters) (f : BFeature) (n : String) (pma : Int)
    (locs : List (ℚ × ℚ)) (tg : Geometry)
    (hn : f.properties.NAME = some n) (hn1 : n ≠ "") (hn2 : n ≠ "Unknown Park")
    (hp : f.properties.PMA = some pma)
    (hl : collectSignLocations proj (index (toString pma)) = Except.ok locs)
    (hin : inSeattle (calculate_centroid_wgs84 proj f.geometry).1
      (calculate_centroid_wgs84 proj f.geometry).2 = true)
    (ht : transform_geometry proj f.geometry = Except.ok tg) :
    processFeature proj index ([], c) f =
      ([parkRecord (calculate_centroid_wgs84 proj f.geometry) f n (toString pma)
          (decide (0 < (index (toString pma)).length)) locs tg],
        ((if decide (0 < (index (toString pma)).length) then c.incWith
          else c.incWithout)).incCreated) := by
  rw [processFeature_eq proj index [] c f n pma hn hn1 hn2 hp,
    tryBody_upsert proj [] f n (toString pma) (index (toString pma))
      (decide (0 < (index (toString pma)).length)) locs tg hl hin ht,
    update_or_create_nil]
  rfl

lemma processFeature_upsert_one (proj : ℚ → ℚ → ℚ × ℚ) (index : String → List SFeature)
    (c : Counters) (f : BFeature) (n : String) (pma : Int)
    (locs : List (ℚ × ℚ)) (tg : Geometry) (p0 : Park)
    (hn : f.properties.NAME = some n) (hn1 : n ≠ "") (hn2 : n ≠ "Unknown Park")
    (hp : f.properties.PMA = some pma)
    (hl : collectSignLocations proj (index (toString pma)) = Except.ok locs)
    (hin : inSeattle (calculate_centroid_wgs84 proj f.geometry).1
      (calculate_centroid_wgs84 proj f.geometry).2 = true)
    (ht : transform_geometry proj f.geometry = Except.ok tg)
    (hid : p0.pma_id = toString pma) :
    processFeature proj index ([p0], c) f =
      ([parkRecord (calculate_centroid_wgs84 proj f.geometry) f n (toString pma)
          (decide (0 < (index (toString pma)).length)) locs tg],
        ((if decide (0 < (index (toString pma)).length) then c.incWith
          else c.incWithout)).incUpdated) := by
  rw [processFeature_eq proj index [p0] c f n pma hn hn1 hn2 hp,
    tryBody_upsert proj [p0] f n (toString pma) (index (toString pma))
      (decide (0 < (index (toString pma)).length)) locs tg hl hin ht,
    update_or_create_hit _ _ p0 hid]
  rfl

/-- C1: ingestion is an idempotent keyed overwrite.  An accepted boundary
feature with PMA `pma` creates the record keyed `toString pma` on a first
run over an empty store (`created = 1`); a second run whose feature has the
same PMA updates that same record (`updated = 1`, `created = 0`); the store
then holds exactly one record for that id, its fields are exactly the
values computed from the second run's feature (full overwrite, not merge),
and the final store equals the store the second run would produce from
scratch. -/
theorem C1_keyed_idempotent_upsert
    (proj : ℚ → ℚ → ℚ × ℚ) (signs : List SFeature) (f f2 : BFeature)
    (n n2 : String) (pma : Int)
    (locs locs2 : List (ℚ × ℚ)) (tg tg2 : Geometry)
    (hn : f.properties.NAME = some n) (hn1 : n ≠ "") (hn2 : n ≠ "Unknown Park")
    (hp : f.properties.PMA = some pma)
    (hl : collectSignLocations proj (dGet (indexSigns signs) (toString pma)) =
      Except.ok locs)
    (hin : inSeattle (calculate_centroid_wgs84 proj f.geometry).1
      (calculate_centroid_wgs84 proj f.geometry).2 = true)
    (ht : transform_geometry proj f.geometry = Except.ok tg)
    (hn' : f2.properties.NAME = some n2) (hn1' : n2 ≠ "") (hn2' : n2 ≠ "Unknown Park")
    (hp' : f2.properties.PMA = some pma)
    (hl' : collectSignLocations proj (dGet (indexSigns signs) (toString pma)) =
      Except.ok locs2)
    (hin' : inSeattle (calculate_centroid_wgs84 proj f2.geometry).1
      (calculate_centroid_wgs84 proj f2.geometry).2 = true)
    (ht' : transform_geometry proj f2.geometry = Except.ok tg2) :
    (ingest proj [f] signs []).2.created = 1 ∧
    (ingest proj [f] signs []).2.updated = 0 ∧
    (ingest proj [f2] signs (ingest proj [f] signs []).1).2.created = 0 ∧
    (ingest proj [f2] signs (ingest proj [f] signs []).1).2.updated = 1 ∧
    (ingest proj [f2] signs (ingest proj [f] signs []).1).1 =
      [parkRecord (calculate_centroid_wgs84 proj f2.geometry) f2 n2 (toString pma)
        (decide (0 < (dGet (indexSigns signs) (toString pma)).length)) locs2 tg2] ∧
    (ingest proj [f2] signs (ingest proj [f] signs []).1).1 =
      (ingest proj [f2] signs []).1 ∧
    ((ingest proj [f2] signs (ingest proj [f] signs []).1).1.filter
      (fun p => decide (p.pma_id = toString pma))).length = 1 := by
  have E1 : ingest proj [f] signs [] =
      ([parkRecord (calculate_centroid_wgs84 proj f.geometry) f n (toString pma)
          (decide (0 < (dGet (indexSigns signs) (toString pma)).length)) locs tg],
        ((if decide (0 < (dGet (indexSigns signs) (toString pma)).length) then
          Counters.zero.incWith else Counters.zero.incWithout)).incCreated) :=
    processFeature_upsert_nil proj (fun k => dGet (indexSigns signs) k) Counters.zero
      f n pma locs tg hn hn1 hn2 hp hl hin ht
  have E2 : ingest proj [f2] signs (ingest proj [f] signs []).1 =
      ([parkRecord (calculate_centroid_wgs84 proj f2.geometry) f2 n2 (toString pma)
          (decide (0 < (dGet (indexSigns signs) (toString pma)).length)) locs2 tg2],
        ((if decide (0 < (dGet (indexSigns signs) (toString pma)).length) then
          Counters.zero.incWith else Counters.zero.incWithout)).incUpdated) := by
    rw [E1]
    exact processFeature_upsert_one proj (fun k => dGet (indexSigns signs) k) Counters.zero
      f2 n2 pma locs2 tg2
      (parkRecord (calculate_centroid_wgs84 proj f.geometry) f n (toString pma)
        (decide (0 < (dGet (indexSigns signs) (toString pma)).length)) locs tg)
      hn' hn1' hn2' hp' hl' hin' ht' rfl
  have E3 : ingest proj [f2] signs [] =
      ([parkRecord (calculate_centroid_wgs84 proj f2.geometry) f2 n2 (toString pma)
          (decide (0 < (dGet (indexSigns signs) (toString pma)).length)) locs2 tg2],
        ((if decide (0 < (dGet (indexSigns signs) (toString pma)).length) then
          Counters.zero.incWith else Counters.zero.incWithout)).incCreated) :=
    processFeature_upsert_nil proj (fun k => dGet (indexSigns signs) k) Counters.zero
      f2 n2 pma locs2 tg2 hn' hn1' hn2' hp' hl' hin' ht'
  refine ⟨?_, ?_, ?_, ?_, ?_, ?_, ?_⟩
  · rw [E1]
    split_ifs <;>
      simp [Counters.incCreated, Counters.incWith, Counters.incWithout, Counters.zero]
  · rw [E1]
    split_ifs <;>
      simp [Counters.incCreated, Counters.incWith, Counters.incWithout, Counters.zero]
  · rw [E2]
    split_ifs <;>
      simp [Counters.incUpdated, Counters.incWith, Counters.incWithout, Counters.zero]
  · rw [E2]
    split_ifs <;>
      simp [Counters.incUpdated, Counters.incWith, Counters.incWithout, Counters.zero]
  · rw [E2]
  · rw [E2, E3]
  · rw [E2]
    simp [List.filter, parkRecord]

/-- Witness for C1: the same feature `fW` ingested twice under `projW` with
no signs. -/
theorem C1_keyed_idempotent_upsert_witness :
    (ingest projW [fW] [] []).2.created = 1 ∧
    (ingest projW [fW] [] []).2.updated = 0 ∧
    (ingest projW [fW] [] (ingest projW [fW] [] []).1).2.created = 0 ∧
    (ingest projW [fW] [] (ingest projW [fW] [] []).1).2.updated = 1 ∧
    (ingest projW [fW] [] (ingest projW [fW] [] []).1).1 =
      [parkRecord (calculate_centroid_wgs84 projW fW.geometry) fW "A" (toString (1 : Int))
        (decide (0 < (dGet (indexSigns []) (toString (1 : Int))).length)) []
        (mkPolygon [[(-122, latW)]])] ∧
    (ingest projW [fW] [] (ingest projW [fW] [] []).1).1 =
      (ingest projW [fW] [] []).1 ∧
    ((ingest projW [fW] [] (ingest projW [fW] [] []).1).1.filter
      (fun p => decide (p.pma_id = toString (1 : Int)))).length = 1 :=
  C1_keyed_idempotent_upsert projW [] fW fW "A" "A" 1 [] []
    (mkPolygon [[(-122, latW)]]) (mkPolygon [[(-122, latW)]])
    rfl (by decide) (by decide) rfl rfl (by decide) rfl
    rfl (by decide) (by decide) rfl rfl (by decide) rfl

/-- An otherwise-valid boundary feature whose `PARKSBND_AREA` is present
but zero. -/
def fZ : BFeature := ⟨⟨some "Z", some 2, some 0, none⟩, mkPolygon [[(0, 0)]]⟩

/-- Counterexample to C9 as stated: `fZ` has `PARKSBND_AREA` present
(equal to 0) and is accepted, yet the stored `acres` is null, while the
claimed formula gives `some (round2 (0 / 43560))`, which is not null.  The
code guards the computation with Python truthiness (`if area_sqft:`), not
presence. -/
theorem C9_acres_counterexample :
    fZ.properties.PARKSBND_AREA = some 0 ∧
    (ingest projW [fZ] [] []).1.map Park.acres = [none] ∧
    some (pyRound2 ((0 : ℚ) / 43560)) ≠ (none : Option ℚ) :=
  ⟨rfl, rfl, by simp⟩

/-- C9 (amended): for an accepted boundary feature, the stored `acres` is
`round(PARKSBND_AREA / 43560, 2)` when `PARKSBND_AREA` is present and
non-zero (truthy), and null when it is absent or zero; in particular
`PARKSBND_AREA = 87120` yields `acres = 2.0`. -/
theorem C9_acres_amended (proj : ℚ → ℚ → ℚ × ℚ) (signs : List SFeature) (f : BFeature)
    (n : String) (pma : Int) (locs : List (ℚ × ℚ)) (tg : Geometry)
    (hn : f.properties.NAME = some n) (hn1 : n ≠ "") (hn2 : n ≠ "Unknown Park")
    (hp : f.properties.PMA = some pma)
    (hl : collectSignLocations proj (dGet (indexSigns signs) (toString pma)) =
      Except.ok locs)
    (hin : inSeattle (calculate_centroid_wgs84 proj f.geometry).1
      (calculate_centroid_wgs84 proj f.geometry).2 = true)
    (ht : transform_geometry proj f.geometry = Except.ok tg) :
    (f.properties.PARKSBND_AREA = none →
      (ingest proj [f] signs []).1.map Park.acres = [none]) ∧
    (f.properties.PARKSBND_AREA = some 0 →
      (ingest proj [f] signs []).1.map Park.acres = [none]) ∧
    (∀ a : ℚ, f.properties.PARKSBND_AREA = some a → a ≠ 0 →
      (ingest proj [f] signs []).1.map Park.acres = [some (pyRound2 (a / 43560))]) ∧
    pyRound2 ((87120 : ℚ) / 43560) = 2 := by
  have E1 : ingest proj [f] signs [] =
      ([parkRecord (calculate_centroid_wgs84 proj f.geometry) f n (toString pma)
          (decide (0 < (dGet (indexSigns signs) (toString pma)).length)) locs tg],
        ((if decide (0 < (dGet (indexSigns signs) (toString pma)).length) then
          Counters.zero.incWith else Counters.zero.incWithout)).incCreated) :=
    processFeature_upsert_nil proj (fun k => dGet (indexSigns signs) k) Counters.zero
      f n pma locs tg hn hn1 hn2 hp hl hin ht
  refine ⟨?_, ?_, ?_, ?_⟩
  · intro ha
    rw [E1]
    simp [parkRecord, acresOf, ha]
  · intro ha
    rw [E1]
    simp [parkRecord, acresOf, ha]
  · intro a ha haz
    rw [E1]
    simp [parkRecord, acresOf, ha, haz]
  · have h : (87120 : ℚ) / 43560 = 2 := by norm_num
    rw [h]
    unfold pyRound2
    norm_num

/-- An otherwise-valid boundary feature whose `PARKSBND_AREA` is 87120
square feet (two acres). -/
def fA : BFeature := ⟨⟨some "B", some 3, some 87120, none⟩, mkPolygon [[(0, 0)]]⟩

/-- Witness for the amended C9 at `fA`. -/
theorem C9_acres_amended_witness :
    (fA.properties.PARKSBND_AREA = none →
      (ingest projW [fA] [] []).1.map Park.acres = [none]) ∧
    (fA.properties.PARKSBND_AREA = some 0 →
      (ingest projW [fA] [] []).1.map Park.acres = [none]) ∧
    (∀ a : ℚ, fA.properties.PARKSBND_AREA = some a → a ≠ 0 →
      (ingest projW [fA] [] []).1.map Park.acres = [some (pyRound2 (a / 43560))]) ∧
    pyRound2 ((87120 : ℚ) / 43560) = 2 :=
  C9_acres_amended projW [] fA "B" 3 [] (mkPolygon [[(-122, latW)]])
    rfl (by decide) (by decide) rfl rfl (by decide) rfl
